import Mathlib

/-!
Shallow embedding of the scheduling and polling engine of the
handball.net WhatsApp liveticker bot (src/polling.js, src/app.js,
src/utils.js), together with theorems checking the natural-language
specification against this embedding.

Conventions of the embedding:
* JavaScript strings are Lean `String`s; `undefined`/`null`-able fields
  are `Option`s; JavaScript string falsiness (`undefined`, `null`, `""`)
  is `strTruthy = false`.
* The `seen` JS `Set` is a `List String` in insertion order; the code
  only adds an id after a membership check, so list append models
  `Set.add` exactly.
* `parseInt(s, 10)` is modelled by `parseIntNat`: `none` stands for JS
  `NaN` (no leading digits); a `NaN` minute makes every `> 30`
  comparison false, exactly as in JS.
-/

namespace Liveticker

/-- Worker pool capacity (polling.js line 13). -/
def MAX_WORKERS : Nat := 5

/-- Lead minutes before the official start (polling.js line 14). -/
def PRE_GAME_START_MINUTES : Nat := 5

/-- Recap flush interval in minutes (polling.js line 15). -/
def RECAP_INTERVAL_MINUTES : Nat := 5

/-- JS string truthiness for an optional string: `undefined`, `null`
and `""` are falsy. -/
def strTruthy : Option String → Bool
  | none => false
  | some s => !s.isEmpty

/-- JS `a || b` on a string `a` with string default `b`. -/
def jsOrStr (a : Option String) (b : String) : String :=
  match a with
  | none => b
  | some s => if s.isEmpty then b else s

/-- Model of `parseInt(s, 10)` restricted to the inputs the bot feeds it
(clock fields such as `"34"`): value of the maximal leading digit run,
`none` when the string does not start with a digit (JS `NaN`). -/
def parseIntNat (s : String) : Option Nat :=
  let digits := s.toList.takeWhile Char.isDigit
  if digits.isEmpty then none
  else some (digits.foldl (fun n c => 10 * n + (c.toNat - '0'.toNat)) 0)

/-- JS `s.split(':')[0]`: the prefix of `s` before the first `':'`. -/
def firstClockField (s : String) : String :=
  ⟨s.toList.takeWhile (fun c => c ≠ ':')⟩

/-- JS `ev.time ? parseInt(ev.time.split(':')[0], 10) : 0` — the in-game
minute of an occurrence; `some 0` when the time is absent or empty
(falsy), `none` for JS `NaN`. -/
def eventMinute (time : Option String) : Option Nat :=
  match time with
  | none => some 0
  | some t => if t.isEmpty then some 0 else parseIntNat (firstClockField t)

/-- Comparison `minute > 30` with `NaN > 30 = false` (polling.js lines 651-652). -/
def minuteGT30 (time : Option String) : Bool :=
  match eventMinute time with
  | some m => decide (m > 30)
  | none => false

/-! ## Identifier resolver (polling.js lines 30-63) -/

/-- Predicate `looksLikeGameId(segment)`: false for a missing or empty segment
(JS falsiness), otherwise the segment must contain a `'.'` and at
least one digit. -/
def looksLikeGameId : Option String → Bool
  | none => false
  | some s =>
    if s.isEmpty then false
    else s.toList.contains '.' && s.toList.any Char.isDigit

/-- JS `String.prototype.split(sep)` for a one-character separator, on
the character list: `"" ↦ [""]`, adjacent separators yield empty
pieces, exactly as in JS. -/
def splitOnChar (c : Char) : List Char → List (List Char)
  | [] => [[]]
  | x :: xs =>
    let r := splitOnChar c xs
    if x = c then [] :: r
    else
      match r with
      | [] => [[x]]
      | y :: ys => (x :: y) :: ys

/-- JS `pathname.endsWith('/') ? pathname.slice(0, -1) : pathname`, on
the character list. -/
def pathChars (pathname : String) : List Char :=
  let cs := pathname.toList
  if cs.getLast? = some '/' then cs.dropLast else cs

/-- The non-empty path segments the resolver inspects (polling.js
lines 38-44): strip one trailing `'/'`, split on `'/'`, drop empty
segments. -/
def pathSegments (pathname : String) : List String :=
  ((splitOnChar '/' (pathChars pathname)).map (fun l => (⟨l⟩ : String))).filter
    (fun s => s.length > 0)

/-- Function `getGameIdFromUrl`, modelled on the URL's pathname (the `new URL`
parse and its try/catch are outside the string model): return the last
non-empty segment when it looks like a game id, else pop it
(`segments.pop()`) and try the new last segment, else `null`. -/
def getGameIdFromUrl (pathname : String) : Option String :=
  let segments := pathSegments pathname
  let lastSegment := segments.getLast?
  if looksLikeGameId lastSegment then lastSegment
  else
    let potentialId := segments.dropLast.getLast?
    if looksLikeGameId potentialId then potentialId
    else none

/-- The recognized identifier shape on a plain segment, as the spec
words it: contains the separator character and at least one digit. -/
def looksLikeGameIdStr (s : String) : Bool :=
  s.toList.contains '.' && s.toList.any Char.isDigit

/-- Spec-side selection rule (spec section 4.1, worded from the spec,
for comparison with `getGameIdFromUrl`): the last segment when it
matches, otherwise the second-to-last when that one matches,
otherwise a failure signal. -/
def gameIdSpec (segs : List String) : Option String :=
  match segs.reverse with
  | [] => none
  | [a] => if looksLikeGameIdStr a then some a else none
  | a :: b :: _ =>
    if looksLikeGameIdStr a then some a
    else if looksLikeGameIdStr b then some b
    else none

/-! ## Data model -/

/-- One occurrence from the remote provider's `events` list. -/
structure GameEvent where
  id : String
  type : String
  time : Option String := none
  score : Option String := none
  message : String := ""
  team : Option String := none
  timestamp : Int := 0
  deriving Repr, DecidableEq

/-- One chat's ticker state (the value in the `activeTickers` map).
Timer handles are modelled by armed/canceled flags; unset JS fields
are the defaults below (JS `undefined` is falsy). -/
structure TickerState where
  seen : List String := []
  isPolling : Bool := false
  isScheduling : Bool := false
  isScheduled : Bool := false
  isAutoSchedule : Bool := false
  meetingPageUrl : Option String := none
  teamPageUrl : Option String := none
  gameId : Option String := none
  groupName : Option String := none
  mode : Option String := none
  recapEvents : List GameEvent := []
  recapMinuteCounter : Nat := 0
  lastUpdatedAt : Option String := none
  lastKnownScore : Option String := none
  teamNames : Option (String × String) := none
  ageGroup : Option String := none
  recapTimerArmed : Bool := false
  scheduleTimerArmed : Bool := false
  deriving Repr, DecidableEq

/-- A queued fetch job (`type` is `"schedule"` or `"poll"`). -/
structure Job where
  type : String
  chatId : String
  gameId : Option String := none
  jobId : Nat := 0
  deriving Repr, DecidableEq

/-- The fields of the remote combined-data payload the poll branch
reads (`metaRes.data.data.summary` and `.events`). -/
structure GameData where
  updatedAt : Option String := none
  homeTeam : String := ""
  awayTeam : String := ""
  ageGroup : Option String := none
  events : List GameEvent := []
  deriving Repr, DecidableEq

/-- One entry of the parsed team-schedule JSON array (the fields
`autoScheduleNextGame` reads). -/
structure ScheduleGame where
  id : String
  state : String := ""
  startsAt : Option Int := none
  deriving Repr, DecidableEq

lemma looksLikeGameId_some_of_mem_pathSegments (p : String) (s : String)
    (hs : s ∈ pathSegments p) : looksLikeGameId (some s) = looksLikeGameIdStr s := by
  have hlen : s.length > 0 := by
    have h := (List.mem_filter.mp hs).2
    simpa using h
  have hne : ¬ s.isEmpty = true := by
    intro h
    have : s = "" := (String.isEmpty_iff s).mp h
    subst this
    simp at hlen
  simp [looksLikeGameId, looksLikeGameIdStr, hne]

/-- C9 — For every event-page URL (modelled by its pathname), the
game-identifier extraction returns the last non-empty path segment if
it matches the recognized identifier shape (contains `'.'` and a
digit), otherwise the second-to-last segment if that one matches,
otherwise the failure signal `none` instead of throwing. -/
theorem getGameIdFromUrl_eq_spec (p : String) :
    getGameIdFromUrl p = gameIdSpec (pathSegments p) := by
  simp only [getGameIdFromUrl, gameIdSpec]
  rcases h : (pathSegments p).reverse with _ | ⟨a, tl⟩
  · have hnil : pathSegments p = [] := by
      simpa using congrArg List.reverse h
    simp [hnil, looksLikeGameId]
  · have hsegs : pathSegments p = (a :: tl).reverse := by
      have h2 := congrArg List.reverse h
      simpa using h2
    have hmema : a ∈ pathSegments p := by
      rw [hsegs]; simp
    have hlast : (pathSegments p).getLast? = some a := by
      rw [hsegs]; simp [List.getLast?_reverse]
    have ea : looksLikeGameId (some a) = looksLikeGameIdStr a :=
      looksLikeGameId_some_of_mem_pathSegments p a hmema
    rcases tl with _ | ⟨b, tl'⟩
    · have hdrop : (pathSegments p).dropLast = [] := by
        rw [hsegs]; simp
      by_cases ha : looksLikeGameIdStr a <;>
        simp [ea, ha, hlast, hdrop, show looksLikeGameId none = false from rfl]
    · have hmemb : b ∈ pathSegments p := by
        rw [hsegs]; simp
      have hdrop : (pathSegments p).dropLast.getLast? = some b := by
        rw [hsegs]
        have h3 : (a :: b :: tl').reverse.dropLast = (b :: tl').reverse := by
          simp [List.reverse_cons, List.dropLast_concat]
        rw [h3]
        simp [List.getLast?_reverse]
      have eb : looksLikeGameId (some b) = looksLikeGameIdStr b :=
        looksLikeGameId_some_of_mem_pathSegments p b hmemb
      by_cases ha : looksLikeGameIdStr a <;> by_cases hb : looksLikeGameIdStr b <;>
        simp [ea, eb, ha, hb, hlast, hdrop]

/-! ## Recap batcher (polling.js lines 325-381) -/

/-- JS `event ? parseInt(event.time.split(':')[0], 10) : startMin` as used
by the critical branch of `sendRecapMessage` (polling.js line 339);
clock strings start with digits, so the JS `NaN`/missing-time edge
(which never occurs on provider data) is collapsed to 0. -/
def criticalMinute (event : Option GameEvent) (startMin : Nat) : Nat :=
  match event with
  | none => startMin
  | some e =>
    match e.time with
    | some t => (parseIntNat (firstClockField t)).getD 0
    | none => 0

/-- Function `sendRecapMessage`: in place of the outgoing WhatsApp text, the
model returns the (sorted) list of occurrences folded into the message
(`none` when nothing is sent). `formatRecapEventLine` (utils.js) always
yields a non-empty line (it starts with an emoji), so the `validLines`
filter drops nothing and is omitted; a delivery failure is caught and
the buffer is cleared either way, so success and failure coincide in
the state. -/
def sendRecapMessage (st : TickerState) (isCritical : Bool) (event : Option GameEvent) :
    TickerState × Option (List GameEvent) :=
  if !isCritical && (!st.isPolling || st.recapEvents.isEmpty) then (st, none)
  else
    let startMin := st.recapMinuteCounter
    let cursor := if isCritical then criticalMinute event startMin
                  else startMin + RECAP_INTERVAL_MINUTES
    let st := { st with recapMinuteCounter := cursor }
    let eventsToSend := st.recapEvents ++ (match isCritical, event with
      | true, some e => [e]
      | _, _ => [])
    if eventsToSend.isEmpty then ({ st with recapEvents := [] }, none)
    else
      let sorted := eventsToSend.mergeSort (fun a b => a.timestamp ≤ b.timestamp)
      ({ st with recapEvents := [] }, some sorted)

/-! ## Event processor (polling.js lines 550-723) -/

/-- Result of one `processEvents` run. `liveSends` lists the occurrence
ids for which the live-mode `sendMessage` call is issued, in order
(`formatEvent` always returns non-empty text and a failed send is
caught, so exactly one call is attempted per listed id). `autoAttempts`
lists the `finishedGameId` arguments of the `autoScheduleNextGame`
calls the run schedules (in the delayed cleanup step). `stopped`
records the `break` on a game-over occurrence. -/
structure ProcOut where
  ticker : TickerState
  queue : List Job
  liveSends : List String
  autoAttempts : List (Option String)
  stopped : Bool
  processedNew : Bool
  deriving Repr, DecidableEq

/-- Recap-mode buffering of one occurrence (polling.js lines 583-635;
the `ignoredEvents` list is empty, so every occurrence is buffered; the
`preformattedDetail` string is presentation-only and not modelled). -/
def recapPush (st : TickerState) (evWithScore : GameEvent) : TickerState :=
  if st.mode == some "recap"
  then { st with recapEvents := st.recapEvents ++ [evWithScore] }
  else st

/-- Critical-occurrence handling in recap mode (polling.js lines
638-648): clear the periodic flush timer, flush immediately — passing
`null` in place of the occurrence — and re-arm the timer. -/
def criticalFlush (st : TickerState) (isCritical : Bool) : TickerState :=
  if isCritical && st.mode == some "recap" then
    { (sendRecapMessage { st with recapTimerArmed := false } true none).1 with
        recapTimerArmed := true }
  else st

/-- Loop body of `processEvents` over the already-reversed event list
(polling.js lines 558-718). The statistics, summary and closing
messages and the delayed ticker-map cleanup are external effects with
no bearing on ticker/queue state and are not recorded. -/
def processEventsGo (chatId : String) (st : TickerState) (queue : List Job)
    (lastScore : String) : List GameEvent → ProcOut
  | [] => ⟨{ st with lastKnownScore := some lastScore }, queue, [], [], false, false⟩
  | ev :: rest =>
    if st.seen.contains ev.id then
      processEventsGo chatId st queue lastScore rest
    else
      let st1 := { st with seen := st.seen ++ [ev.id] }
      let lastScore1 := jsOrStr ev.score lastScore
      let evWithScore := { ev with score := some (jsOrStr ev.score lastScore1) }
      let sendsHere : List String := if st1.mode == some "live" then [ev.id] else []
      let st2 := recapPush st1 evWithScore
      let st3 := criticalFlush st2 (ev.type == "StopPeriod" || ev.type == "StartPeriod")
      if ev.type == "StopPeriod" && minuteGT30 ev.time then
        let st4 := { st3 with isPolling := false, recapTimerArmed := false }
        let queue4 := List.eraseP (fun j => j.chatId == chatId) queue
        let attempts : List (Option String) :=
          if st4.isAutoSchedule then [st4.gameId] else []
        ⟨{ st4 with lastKnownScore := some lastScore1 }, queue4, sendsHere, attempts,
          true, true⟩
      else
        let r := processEventsGo chatId st3 queue lastScore1 rest
        ⟨r.ticker, r.queue, sendsHere ++ r.liveSends, r.autoAttempts, r.stopped, true⟩

/-- Function `processEvents(gameData, tickerState, chatId)`: reverses the
newest-first event list and walks it chronologically. -/
def processEvents (chatId : String) (gd : GameData) (st : TickerState)
    (queue : List Job) : ProcOut :=
  processEventsGo chatId st queue (jsOrStr st.lastKnownScore "0-0") gd.events.reverse

/-! ## Worker poll branch (polling.js lines 502-524) -/

/-- Result of one poll-job worker run; `saved` records the
`saveSeenTickers` call. -/
structure PollOut where
  ticker : TickerState
  queue : List Job
  liveSends : List String
  autoAttempts : List (Option String)
  saved : Bool
  deriving Repr, DecidableEq

/-- Lines 503-511: fill `teamNames`, `ageGroup`, `lastKnownScore` when
they are still unset (falsy). -/
def pollDefaults (st : TickerState) (gd : GameData) : TickerState :=
  let st := if st.teamNames.isNone
            then { st with teamNames := some (gd.homeTeam, gd.awayTeam) } else st
  let st := if !(strTruthy st.ageGroup) then { st with ageGroup := gd.ageGroup } else st
  if !(strTruthy st.lastKnownScore) then { st with lastKnownScore := some "0-0" } else st

/-- JS `a < b` on strings: lexicographic comparison of the code-unit
sequences (the provider's tokens are basic-plane characters, where
UTF-16 code units and code points agree). -/
def jsLtChars : List Char → List Char → Bool
  | [], [] => false
  | [], _ :: _ => true
  | _ :: _, [] => false
  | a :: as, b :: bs =>
    if a.toNat < b.toNat then true
    else if b.toNat < a.toNat then false
    else jsLtChars as bs

/-- JS string comparison `a < b`. -/
def jsStrLt (a b : String) : Bool :=
  jsLtChars a.toList b.toList

/-- Test `!tickerState.lastUpdatedAt || newUpdatedAt > tickerState.lastUpdatedAt`
(line 514): no token recorded yet, or the fetched token is strictly
greater in JS string order. -/
def tokenFresh (st : TickerState) (gd : GameData) : Bool :=
  !(strTruthy st.lastUpdatedAt) ||
    (match gd.updatedAt, st.lastUpdatedAt with
     | some n, some l => jsStrLt l n
     | _, _ => false)

/-- The `poll` branch of `runWorker` on a successfully fetched payload. -/
def runWorkerPoll (chatId : String) (gd : GameData) (st : TickerState)
    (queue : List Job) : PollOut :=
  let st1 := pollDefaults st gd
  if tokenFresh st1 gd then
    let st2 := { st1 with lastUpdatedAt := gd.updatedAt }
    let r := processEvents chatId gd st2 queue
    ⟨r.ticker, r.queue, r.liveSends, r.autoAttempts, r.processedNew⟩
  else ⟨st1, queue, [], [], false⟩

/-- A dispatched poll job including the stale-state re-validation at
the top of `runWorker` (line 426): a job whose ticker is no longer
polling is discarded without effect. -/
def runPollJob (chatId : String) (gd : GameData) (st : TickerState)
    (queue : List Job) : PollOut :=
  if !st.isPolling then ⟨st, queue, [], [], false⟩
  else runWorkerPoll chatId gd st queue

/-- Final state and concatenated live-delivery trace of a sequence of
poll-job executions against one subscription. -/
structure SeqOut where
  ticker : TickerState
  queue : List Job
  liveSends : List String
  deriving Repr, DecidableEq

def runPollSeq (chatId : String) (st : TickerState) (queue : List Job) :
    List GameData → SeqOut
  | [] => ⟨st, queue, []⟩
  | gd :: rest =>
    let r := runPollJob chatId gd st queue
    let s := runPollSeq chatId r.ticker r.queue rest
    ⟨s.ticker, s.queue, r.liveSends ++ s.liveSends⟩

/-! ## Auto-schedule candidate selection (polling.js lines 229-234) -/

/-- JS truthiness of the numeric `startsAt` field (`0` is falsy). -/
def jsTruthyInt : Option Int → Bool
  | none => false
  | some n => decide (n ≠ 0)

/-- JS `games.find(game => game.state === 'Pre' && game.startsAt &&
game.id !== finishedGameId)`. -/
def findNextGame (games : List ScheduleGame) (finishedGameId : Option String) :
    Option ScheduleGame :=
  games.find? (fun g =>
    g.state == "Pre" && jsTruthyInt g.startsAt && !(some g.id == finishedGameId))

/-! ## Ticker creation (polling.js lines 184-217) and command handlers
(app.js lines 103-233). The model is per chat: `st?` is the entry of
the `activeTickers` map for the commanding chat (`none` when absent);
file writes and outgoing chat messages are external effects. The
model's `getGameIdFromUrl` consumes the URL pathname. -/

/-- Function `queueTickerScheduling`: validate the URL, then overwrite (or
create) the ticker state, keeping a pre-existing `seen` set, and append
a `schedule` job. On a failed extraction an error message is sent and
nothing changes. -/
def queueTickerScheduling (meetingPageUrl chatId groupName mode : String)
    (isAutoSchedule : Bool) (teamPageUrl : Option String) (jobId : Nat)
    (st? : Option TickerState) (queue : List Job) :
    Option TickerState × List Job :=
  match getGameIdFromUrl meetingPageUrl with
  | none => (st?, queue)
  | some gameId =>
    let base := st?.getD {}
    let t := { base with
      isPolling := false
      isScheduling := true
      meetingPageUrl := some meetingPageUrl
      gameId := some gameId
      groupName := some groupName
      mode := some mode
      recapEvents := []
      isAutoSchedule := isAutoSchedule
      teamPageUrl := teamPageUrl }
    (some t, queue ++ [⟨"schedule", chatId, some gameId, jobId⟩])

/-- The busy guard of the `!start` (app.js line 119) and
`!autoschedule` (line 205) handlers:
`activeTickers.has(chatId) && (….isPolling || ….isScheduled)`. -/
def startGuardRejects (st? : Option TickerState) : Bool :=
  match st? with
  | none => false
  | some t => t.isPolling || t.isScheduled

/-- The `!start` handler: refuse while the guard holds, otherwise hand
off to `queueTickerScheduling` with `isAutoSchedule = false`. The
`Bool` result records the refusal reply. -/
def startHandler (meetingPageUrl chatId groupName mode : String) (jobId : Nat)
    (st? : Option TickerState) (queue : List Job) :
    Option TickerState × List Job × Bool :=
  if startGuardRejects st? then (st?, queue, true)
  else
    let r := queueTickerScheduling meetingPageUrl chatId groupName mode false none
      jobId st? queue
    (r.1, r.2, false)

/-- Result of the `!stop` handler. -/
structure StopOut where
  ticker : Option TickerState
  queue : List Job
  wasStopped : Bool
  deriving Repr, DecidableEq

/-- The `!stop` handler (app.js lines 136-172): break the auto-schedule
chain, cancel the activation timer when scheduled, cancel the recap
timer when polling, and remove the first queued job of this chat
(`findIndex` + `splice(index, 1)`). The persisted schedule entry
removal is an external file effect. -/
def stopHandler (chatId : String) (st? : Option TickerState) (queue : List Job) :
    StopOut :=
  match st? with
  | none => ⟨none, queue, false⟩
  | some t0 =>
    let t1 := if t0.isAutoSchedule then { t0 with isAutoSchedule := false } else t0
    let t2 := if t1.isScheduled && t1.scheduleTimerArmed
      then { t1 with scheduleTimerArmed := false, isScheduled := false }
      else t1
    let w1 := t1.isScheduled && t1.scheduleTimerArmed
    let t3 := if t2.isPolling
      then { t2 with isPolling := false, recapTimerArmed := false }
      else t2
    let w2 := t2.isPolling
    ⟨some t3, List.eraseP (fun j => j.chatId == chatId) queue, w1 || w2⟩

/-- Timer cancellation and flag clearing the `!reset` handler performs
on an existing ticker before deleting it (app.js lines 177-184). -/
def resetTicker (t : TickerState) : TickerState :=
  { t with scheduleTimerArmed := false, recapTimerArmed := false,
           isPolling := false, isScheduled := false }

/-- Result of the `!reset` handler: `ticker` is the map entry after
`activeTickers.delete` (always `none`); `canceled` is the state after
timer cancellation, just before deletion (`none` when there was no
entry, in which case the queue is also untouched). -/
structure ResetOut where
  ticker : Option TickerState
  canceled : Option TickerState
  queue : List Job
  deriving Repr, DecidableEq

/-- The `!reset` handler (app.js lines 174-197). -/
def resetHandler (chatId : String) (st? : Option TickerState) (queue : List Job) :
    ResetOut :=
  match st? with
  | none => ⟨none, none, queue⟩
  | some t =>
    ⟨none, some (resetTicker t), List.eraseP (fun j => j.chatId == chatId) queue⟩

/-! ## Master scheduler, dispatcher, worker pool
(polling.js lines 311-319, 386-415, 541-544; app.js lines 236-237) -/

/-- Predicate `job.chatId === chatId && job.type === 'poll'` — the duplicate
check of `beginActualPolling` and `masterScheduler`. -/
def isPollJobFor (chatId : String) (j : Job) : Bool :=
  j.chatId == chatId && j.type == "poll"

/-- JS `Array.from(activeTickers.values()).filter(t => t.isPolling)`,
kept as (chatId, state) pairs: the JS code recovers the chat id of the
picked state by reference-identity search over the map entries, which
on a `Map` (distinct keys, distinct value objects) is exactly the
pair's own key. -/
def pollingPairs (tickers : List (String × TickerState)) :
    List (String × TickerState) :=
  tickers.filter (fun p => p.2.isPolling)

/-- One `masterScheduler` invocation (polling.js lines 386-404):
advance the rotating cursor by one (wrapping over the current list of
polling subscriptions), and enqueue a poll job for the cursor's
subscription unless one is already queued for that chat. -/
def masterSchedulerFn (tickers : List (String × TickerState)) (cursor : Int)
    (queue : List Job) (jobId : Nat) : Int × List Job :=
  let ps := pollingPairs tickers
  if ps.length = 0 then (cursor, queue)
  else
    let cursor1 := (cursor + 1).emod ps.length
    match ps[cursor1.toNat]? with
    | none => (cursor1, queue)
    | some target =>
      if target.2.isPolling && !(queue.any (isPollJobFor target.1)) then
        (cursor1, queue ++ [⟨"poll", target.1, target.2.gameId, jobId⟩])
      else (cursor1, queue)

/-- The queue effect of `beginActualPolling` (polling.js lines
311-319): `unshift` an immediate poll job unless one is queued. -/
def beginPollingEnqueue (chatId : String) (t : TickerState) (queue : List Job)
    (jobId : Nat) : List Job :=
  if !(queue.any (isPollJobFor chatId)) then ⟨"poll", chatId, t.gameId, jobId⟩ :: queue
  else queue

/-- Global scheduler/dispatcher state: the ticker map (as an ordered
association list, mirroring `Map` iteration order), the job queue, the
master scheduler's rotating cursor (`lastPolledIndex`, initially -1),
the dispatched-but-unfinished jobs, and the `activeWorkers` counter. -/
structure SysState where
  tickers : List (String × TickerState)
  queue : List Job
  cursor : Int
  running : List Job
  activeWorkers : Nat
  deriving Repr, DecidableEq

/-- Effect of one `masterScheduler` tick on the global state. -/
def schedStepFn (s : SysState) (jobId : Nat) : SysState :=
  let cq := masterSchedulerFn s.tickers s.cursor s.queue jobId
  { s with cursor := cq.1, queue := cq.2 }

/-- Effect of one dispatching `dispatcherLoop` tick: pop the head of
the queue and hand it to a worker. -/
def dispatchFn (s : SysState) : SysState :=
  match s.queue with
  | [] => s
  | j :: rest =>
    { s with queue := rest, running := s.running ++ [j],
             activeWorkers := s.activeWorkers + 1 }

/-- Completion of one worker run (polling.js line 543, and line 428 for
the stale-discard path): the job leaves the running set and
`activeWorkers` is decremented exactly once. -/
def finishFn (s : SysState) (j : Job) : SysState :=
  { s with running := s.running.erase j, activeWorkers := s.activeWorkers - 1 }

/-- Interleaving of the concurrent actors at the suspension points of
the single-threaded event loop. `dispatch` fires only when the queue is
non-empty and a worker slot is free (polling.js line 410); `finish` is
the end of any `runWorker` call — success, failure or stale discard all
decrement `activeWorkers` exactly once (lines 428 and 543).
`beginPolling`, `enqueueSchedule` and `removeForChat` are the queue
effects of activation, of `queueTickerScheduling`, and of the
stop/reset handlers and the game-end branch; `mutateTickers` abstracts
every mutation of the ticker map. -/
inductive Step : SysState → SysState → Prop
  | scheduler (s : SysState) (jobId : Nat) : Step s (schedStepFn s jobId)
  | dispatch (s : SysState) (hq : s.queue ≠ []) (hw : s.activeWorkers < MAX_WORKERS) :
      Step s (dispatchFn s)
  | finish (s : SysState) (j : Job) (hj : j ∈ s.running) :
      Step s (finishFn s j)
  | beginPolling (s : SysState) (chatId : String) (t : TickerState) (jobId : Nat) :
      Step s { s with queue := beginPollingEnqueue chatId t s.queue jobId }
  | enqueueSchedule (s : SysState) (chatId : String) (gid : Option String) (jobId : Nat) :
      Step s { s with queue := s.queue ++ [⟨"schedule", chatId, gid, jobId⟩] }
  | removeForChat (s : SysState) (chatId : String) :
      Step s { s with queue := List.eraseP (fun j => j.chatId == chatId) s.queue }
  | mutateTickers (s : SysState) (tickers' : List (String × TickerState)) :
      Step s { s with tickers := tickers' }

/-- The worker-pool bookkeeping invariant: the counter counts exactly
the running jobs and stays within capacity. -/
def WorkerInv (s : SysState) : Prop :=
  s.activeWorkers = s.running.length ∧ s.activeWorkers ≤ MAX_WORKERS

/-- At most one queued poll job per chat. -/
def QueuedPollInv (s : SysState) : Prop :=
  ∀ c, (s.queue.filter (isPollJobFor c)).length ≤ 1

/-- One fairness pass step with the ticker map held fixed (`jobId`
plays no role in the queue predicate and is fixed to 0). -/
def schedStep (tickers : List (String × TickerState)) :
    Int × List Job → Int × List Job :=
  fun cq => masterSchedulerFn tickers cq.1 cq.2 0

/-! ## Lemmas about the recap batcher -/

lemma fst_ite_pair {α β : Type} (c : Prop) [Decidable c] (a : α) (x y : β) :
    (if c then (a, x) else (a, y)).1 = a := by
  split <;> rfl

lemma sendRecapMessage_frame (st : TickerState) (b : Bool) (e : Option GameEvent) :
    ∃ m r, (sendRecapMessage st b e).1 =
      { st with recapMinuteCounter := m, recapEvents := r } := by
  unfold sendRecapMessage
  by_cases h1 : (!b && (!st.isPolling || st.recapEvents.isEmpty)) = true
  · exact ⟨st.recapMinuteCounter, st.recapEvents, by simp [h1]⟩
  · refine ⟨if b = true then criticalMinute e st.recapMinuteCounter
      else st.recapMinuteCounter + RECAP_INTERVAL_MINUTES, [], ?_⟩
    rw [if_neg h1]
    exact fst_ite_pair _ _ _ _

lemma sendRecapMessage_seen (st : TickerState) (b : Bool) (e : Option GameEvent) :
    (sendRecapMessage st b e).1.seen = st.seen := by
  obtain ⟨m, r, h⟩ := sendRecapMessage_frame st b e
  rw [h]

lemma sendRecapMessage_isPolling (st : TickerState) (b : Bool) (e : Option GameEvent) :
    (sendRecapMessage st b e).1.isPolling = st.isPolling := by
  obtain ⟨m, r, h⟩ := sendRecapMessage_frame st b e
  rw [h]

lemma sendRecapMessage_isAutoSchedule (st : TickerState) (b : Bool) (e : Option GameEvent) :
    (sendRecapMessage st b e).1.isAutoSchedule = st.isAutoSchedule := by
  obtain ⟨m, r, h⟩ := sendRecapMessage_frame st b e
  rw [h]

lemma sendRecapMessage_gameId (st : TickerState) (b : Bool) (e : Option GameEvent) :
    (sendRecapMessage st b e).1.gameId = st.gameId := by
  obtain ⟨m, r, h⟩ := sendRecapMessage_frame st b e
  rw [h]

lemma sendRecapMessage_mode (st : TickerState) (b : Bool) (e : Option GameEvent) :
    (sendRecapMessage st b e).1.mode = st.mode := by
  obtain ⟨m, r, h⟩ := sendRecapMessage_frame st b e
  rw [h]

/-- C8 (amended) — Recap flush behaviour: a timer-triggered flush with
a non-empty buffer advances the minute cursor by exactly one recap
interval; a timer-triggered flush with an empty buffer is a no-op; a
critical flush that is handed the triggering occurrence would advance
the cursor to that occurrence's own in-game minute
(`criticalMinute`), but the event processor invokes the critical flush
with `null` in place of the occurrence, and such a flush leaves the
cursor at its current value; the buffer is empty after every flush
that runs, whether delivery succeeds or fails. -/
theorem recap_flush_behaviour (st : TickerState) (e : GameEvent) :
    (st.isPolling = true → st.recapEvents ≠ [] →
      (sendRecapMessage st false none).1.recapMinuteCounter
          = st.recapMinuteCounter + RECAP_INTERVAL_MINUTES
        ∧ (sendRecapMessage st false none).1.recapEvents = [])
    ∧ (st.recapEvents = [] → sendRecapMessage st false none = (st, none))
    ∧ ((sendRecapMessage st true (some e)).1.recapMinuteCounter
          = criticalMinute (some e) st.recapMinuteCounter
        ∧ (sendRecapMessage st true (some e)).1.recapEvents = [])
    ∧ ((sendRecapMessage st true none).1.recapMinuteCounter = st.recapMinuteCounter
        ∧ (sendRecapMessage st true none).1.recapEvents = []) := by
  refine ⟨?_, ?_, ?_, ?_⟩
  · intro hp hne
    have hempty : st.recapEvents.isEmpty = false := by
      cases h : st.recapEvents with
      | nil => exact absurd h hne
      | cons a tl => simp [h]
    unfold sendRecapMessage
    simp [hp, hempty]
  · intro h0
    unfold sendRecapMessage
    simp [h0]
  · unfold sendRecapMessage
    by_cases h2 : (st.recapEvents ++ [e]).isEmpty = true
    · simp at h2
    · constructor <;> simp [h2]
  · unfold sendRecapMessage
    by_cases h2 : st.recapEvents.isEmpty = true
    · constructor <;> simp [h2, criticalMinute]
    · constructor <;> simp [h2, criticalMinute]

/-- Buffered occurrence for the C8 witness. -/
def flushEv : GameEvent := { id := "e0", type := "Goal" }

/-- Ticker state for the C8 witness: polling, cursor 10, one buffered
occurrence. -/
def flushSt : TickerState :=
  { isPolling := true, recapEvents := [flushEv], recapMinuteCounter := 10 }

/-- Ticker state for the C8 witness no-op clause: empty buffer. -/
def flushStEmpty : TickerState := { recapMinuteCounter := 10 }

/-- C8 witness: the amended flush behaviour at a concrete state with a
one-event buffer and cursor 10. -/
theorem recap_flush_behaviour_witness :
    ((sendRecapMessage flushSt false none).1.recapMinuteCounter = 15
      ∧ (sendRecapMessage flushSt false none).1.recapEvents = [])
    ∧ sendRecapMessage flushStEmpty false none = (flushStEmpty, none) := by
  have h1 := recap_flush_behaviour flushSt flushEv
  have h2 := recap_flush_behaviour flushStEmpty flushEv
  exact ⟨h1.1 rfl (by decide), h2.2.1 rfl⟩

/-- Ticker state for the C8 counterexample: recap mode, cursor at
minute 5, one buffered goal. -/
def recapSt : TickerState :=
  { isPolling := true, mode := some "recap", recapMinuteCounter := 5,
    teamNames := some ("H", "G"), lastKnownScore := some "0-0",
    recapTimerArmed := true }

/-- Critical occurrence at in-game minute 17 for the C8 counterexample. -/
def critEv : GameEvent :=
  { id := "e1", type := "StartPeriod", time := some "17:00", timestamp := 1 }

/-- C8 counterexample — the claim says a critical-event-triggered flush
advances the cursor to the triggering occurrence's own in-game minute.
On a fresh critical occurrence at minute 17 with cursor 5, the event
processor (which passes `null` instead of the occurrence to the flush)
leaves the cursor at 5, not 17. -/
theorem recap_critical_cursor_cex :
    critEv.type = "StartPeriod" ∧ critEv.id ∉ recapSt.seen
    ∧ eventMinute critEv.time = some 17
    ∧ (processEvents "c" { events := [critEv] } recapSt []).ticker.recapMinuteCounter = 5
    ∧ (5 : Nat) ≠ 17 := by
  decide

/-! ## C10 — starting a new ticker keeps the seen set -/

/-- C10 — Starting a new ticker for a chat whose state already exists
preserves the existing seen set unchanged while overwriting the
lifecycle flags it writes (`isPolling`, `isScheduling`), the game
identifier, mode, URLs, auto-schedule flag and recap buffer; only when
no prior state exists is a fresh empty seen set created. -/
theorem queueTickerScheduling_preserves_seen
    (url chatId groupName mode : String) (auto : Bool) (teamUrl : Option String)
    (jobId : Nat) (st? : Option TickerState) (queue : List Job) (gid : String)
    (h : getGameIdFromUrl url = some gid) :
    (∀ t, st? = some t →
      ∃ t', (queueTickerScheduling url chatId groupName mode auto teamUrl jobId
          st? queue).1 = some t'
        ∧ t'.seen = t.seen ∧ t'.isPolling = false ∧ t'.isScheduling = true
        ∧ t'.gameId = some gid ∧ t'.mode = some mode
        ∧ t'.meetingPageUrl = some url ∧ t'.teamPageUrl = teamUrl
        ∧ t'.recapEvents = [] ∧ t'.isAutoSchedule = auto)
    ∧ (st? = none →
      ∃ t', (queueTickerScheduling url chatId groupName mode auto teamUrl jobId
          st? queue).1 = some t' ∧ t'.seen = []) := by
  unfold queueTickerScheduling
  rw [h]
  constructor
  · intro t ht
    subst ht
    exact ⟨_, rfl, rfl, rfl, rfl, rfl, rfl, rfl, rfl, rfl, rfl⟩
  · intro h0
    subst h0
    exact ⟨_, rfl, rfl⟩

/-- Prior ticker state for the C10 witness: a previously seen id and a
previous game's fields. -/
def priorTicker : TickerState :=
  { seen := ["x1"], isPolling := false, gameId := some "old.1",
    mode := some "live", recapEvents := [flushEv] }

/-- C10 witness: at the concrete URL pathname `"spiele/sp.123"` and the
prior state `priorTicker`, the new state keeps `seen = ["x1"]` and
overwrites the rest. -/
theorem queueTickerScheduling_preserves_seen_witness :
    ∃ t', (queueTickerScheduling "spiele/sp.123" "c" "G" "recap" false none 0
        (some priorTicker) []).1 = some t'
      ∧ t'.seen = ["x1"] ∧ t'.isPolling = false ∧ t'.isScheduling = true
      ∧ t'.gameId = some "sp.123" ∧ t'.mode = some "recap"
      ∧ t'.meetingPageUrl = some "spiele/sp.123" ∧ t'.teamPageUrl = none
      ∧ t'.recapEvents = [] ∧ t'.isAutoSchedule = false := by
  have h := queueTickerScheduling_preserves_seen "spiele/sp.123" "c" "G" "recap"
    false none 0 (some priorTicker) [] "sp.123" (by decide)
  exact h.1 priorTicker rfl

/-! ## C7 — the busy guard of start and autoschedule -/

/-- C7 (amended) — A start or auto-schedule command is refused exactly
when the chat's subscription is in the `scheduled` or `polling` state,
and on refusal state and queue are left unchanged. A subscription that
is merely `scheduling` (schedule job still pending) is NOT refused:
the handler proceeds and re-initializes the state. -/
theorem startGuard_amended (st? : Option TickerState)
    (url chatId groupName mode : String) (jobId : Nat) (queue : List Job) :
    (startGuardRejects st? = true
      ↔ ∃ t, st? = some t ∧ (t.isPolling = true ∨ t.isScheduled = true))
    ∧ (startGuardRejects st? = true →
      startHandler url chatId groupName mode jobId st? queue = (st?, queue, true)) := by
  constructor
  · cases st? with
    | none => simp [startGuardRejects]
    | some t =>
      simp only [startGuardRejects]
      constructor
      · intro hg
        refine ⟨t, rfl, ?_⟩
        rcases Bool.or_eq_true_iff.mp hg with h | h
        · exact Or.inl h
        · exact Or.inr h
      · rintro ⟨t', ht', hor⟩
        cases Option.some_inj.mp ht'
        rcases hor with h | h <;> simp [h]
  · intro hg
    unfold startHandler
    rw [if_pos hg]

/-- Ticker state for the C7 material: `scheduling` only. -/
def schedulingTicker : TickerState := { isScheduling := true }

/-- C7 witness: the amended guard at a concrete polling state (refused,
nothing changed) — applied to `recapSt`, which is polling. -/
theorem startGuard_amended_witness :
    startGuardRejects (some recapSt) = true
    ∧ startHandler "spiele/sp.123" "c" "G" "live" 0 (some recapSt) []
        = (some recapSt, [], true) := by
  have h := startGuard_amended (some recapSt) "spiele/sp.123" "c" "G" "live" 0 []
  have hg : startGuardRejects (some recapSt) = true := by decide
  exact ⟨hg, h.2 hg⟩

/-- C7 counterexample — the claim says a start command is rejected
while the subscription is in the `scheduling` state. For a chat whose
ticker is `scheduling` (and neither polling nor scheduled) the guard
does not fire: the handler does not refuse and it enqueues a fresh
schedule job, mutating the queue. -/
theorem startGuard_scheduling_cex :
    schedulingTicker.isScheduling = true
    ∧ schedulingTicker.isPolling = false ∧ schedulingTicker.isScheduled = false
    ∧ startGuardRejects (some schedulingTicker) = false
    ∧ (startHandler "spiele/sp.123" "c" "G" "live" 7 (some schedulingTicker) []).2.2
        = false
    ∧ (startHandler "spiele/sp.123" "c" "G" "live" 7 (some schedulingTicker) []).2.1
        = [⟨"schedule", "c", some "sp.123", 7⟩] := by
  decide

/-! ## C6 — stop/reset cancellation -/

lemma length_filter_eraseP {α : Type} (p : α → Bool) (l : List α) :
    ((List.eraseP p l).filter p).length = (l.filter p).length - 1 := by
  induction l with
  | nil => simp
  | cons a tl ih =>
    by_cases h : p a = true
    · simp [List.eraseP_cons, h]
    · simp [List.eraseP_cons, h, ih]

/-- Timer cancellation and lifecycle-flag clearing the `!stop` handler
performs on an existing ticker (app.js lines 140-162). -/
def stopTicker (t0 : TickerState) : TickerState :=
  let t1 := if t0.isAutoSchedule then { t0 with isAutoSchedule := false } else t0
  let t2 := if t1.isScheduled && t1.scheduleTimerArmed
    then { t1 with scheduleTimerArmed := false, isScheduled := false }
    else t1
  if t2.isPolling then { t2 with isPolling := false, recapTimerArmed := false } else t2

lemma stopTicker_scheduleTimer (t : TickerState) (hs : t.isScheduled = true)
    (ha : t.scheduleTimerArmed = true) : (stopTicker t).scheduleTimerArmed = false := by
  unfold stopTicker
  by_cases hA : t.isAutoSchedule = true <;> by_cases hP : t.isPolling = true <;>
    simp [hA, hP, hs, ha]

lemma stopTicker_polling (t : TickerState) (hp : t.isPolling = true) :
    (stopTicker t).recapTimerArmed = false ∧ (stopTicker t).isPolling = false := by
  unfold stopTicker
  by_cases hA : t.isAutoSchedule = true <;>
    by_cases hS : (t.isScheduled && t.scheduleTimerArmed) = true <;>
    simp [hA, hS, hp]

/-- C6 (amended) — Canceling a subscription: `!reset` cancels both the
deferred activation timer and the periodic recap flush timer and
deletes the state; `!stop` cancels the activation timer when the
subscription is scheduled with an armed timer and the recap timer (and
polling) when it is polling. Both remove only the FIRST queued job
whose chat identifier matches (`findIndex` + `splice(index, 1)`), so
no queued job for the chat remains exactly when at most one was
queued. -/
theorem stop_reset_cancellation (chatId : String) (t : TickerState) (queue : List Job) :
    ((resetHandler chatId (some t) queue).canceled = some (resetTicker t)
      ∧ (resetTicker t).scheduleTimerArmed = false
      ∧ (resetTicker t).recapTimerArmed = false
      ∧ (resetHandler chatId (some t) queue).ticker = none
      ∧ (resetHandler chatId (some t) queue).queue
          = List.eraseP (fun j => j.chatId == chatId) queue)
    ∧ (stopHandler chatId (some t) queue).ticker = some (stopTicker t)
    ∧ (t.isScheduled = true → t.scheduleTimerArmed = true →
        (stopTicker t).scheduleTimerArmed = false)
    ∧ (t.isPolling = true →
        (stopTicker t).recapTimerArmed = false ∧ (stopTicker t).isPolling = false)
    ∧ (stopHandler chatId (some t) queue).queue
        = List.eraseP (fun j => j.chatId == chatId) queue
    ∧ ((queue.filter (fun j => j.chatId == chatId)).length ≤ 1 →
        ((stopHandler chatId (some t) queue).queue.filter
          (fun j => j.chatId == chatId)).length = 0) := by
  refine ⟨⟨rfl, rfl, rfl, rfl, rfl⟩, rfl, ?_, ?_, rfl, ?_⟩
  · exact stopTicker_scheduleTimer t
  · exact stopTicker_polling t
  · intro hle
    have h := length_filter_eraseP (fun j => j.chatId == chatId) queue
    have hq : (stopHandler chatId (some t) queue).queue
        = List.eraseP (fun j => j.chatId == chatId) queue := rfl
    rw [hq, h]
    omega

/-- First queued job of the C6 material. -/
def jobA : Job := ⟨"schedule", "c", some "old.1", 1⟩

/-- Second queued job of the C6 material. -/
def jobB : Job := ⟨"poll", "c", some "sp.123", 2⟩

/-- C6 witness: the amended cancellation at the concrete polling state
`recapSt` with queue `[jobA]` — the recap timer is canceled, polling
stops, and the single queued job for chat `"c"` is removed. -/
theorem stop_reset_cancellation_witness :
    ((stopTicker recapSt).recapTimerArmed = false
      ∧ (stopTicker recapSt).isPolling = false)
    ∧ ((stopHandler "c" (some recapSt) [jobA]).queue.filter
        (fun j => j.chatId == "c")).length = 0
    ∧ (resetHandler "c" (some recapSt) [jobA]).ticker = none := by
  have h := stop_reset_cancellation "c" recapSt [jobA]
  exact ⟨h.2.2.2.1 rfl, h.2.2.2.2.2 (by decide), h.1.2.2.2.1⟩

/-- C6 counterexample — the claim says that after a stop no queued job
for the chat remains. With two queued jobs for chat `"c"`, the stop
handler removes only the first; `jobB` (chat `"c"`) is still queued. -/
theorem stop_two_jobs_cex :
    jobA.chatId = "c" ∧ jobB.chatId = "c"
    ∧ (stopHandler "c" (some schedulingTicker) [jobA, jobB]).queue = [jobB] := by
  decide

/-! ## Lemmas about the event processor -/

lemma recapPush_frame (st : TickerState) (e : GameEvent) :
    ∃ r, recapPush st e = { st with recapEvents := r } := by
  unfold recapPush
  by_cases h : (st.mode == some "recap") = true
  · exact ⟨st.recapEvents ++ [e], by rw [if_pos h]⟩
  · exact ⟨st.recapEvents, by rw [if_neg h]⟩

lemma criticalFlush_frame (st : TickerState) (b : Bool) :
    ∃ m r a, criticalFlush st b =
      { st with recapMinuteCounter := m, recapEvents := r, recapTimerArmed := a } := by
  unfold criticalFlush
  by_cases h : (b && st.mode == some "recap") = true
  · obtain ⟨m, r, hfr⟩ := sendRecapMessage_frame { st with recapTimerArmed := false } true none
    refine ⟨m, r, true, ?_⟩
    rw [if_pos h, hfr]
  · exact ⟨st.recapMinuteCounter, st.recapEvents, st.recapTimerArmed, by rw [if_neg h]⟩

lemma recapPush_seen (st : TickerState) (e : GameEvent) :
    (recapPush st e).seen = st.seen := by
  obtain ⟨r, h⟩ := recapPush_frame st e
  rw [h]

lemma recapPush_isAutoSchedule (st : TickerState) (e : GameEvent) :
    (recapPush st e).isAutoSchedule = st.isAutoSchedule := by
  obtain ⟨r, h⟩ := recapPush_frame st e
  rw [h]

lemma recapPush_gameId (st : TickerState) (e : GameEvent) :
    (recapPush st e).gameId = st.gameId := by
  obtain ⟨r, h⟩ := recapPush_frame st e
  rw [h]

lemma criticalFlush_seen (st : TickerState) (b : Bool) :
    (criticalFlush st b).seen = st.seen := by
  obtain ⟨m, r, a, h⟩ := criticalFlush_frame st b
  rw [h]

lemma criticalFlush_isAutoSchedule (st : TickerState) (b : Bool) :
    (criticalFlush st b).isAutoSchedule = st.isAutoSchedule := by
  obtain ⟨m, r, a, h⟩ := criticalFlush_frame st b
  rw [h]

lemma criticalFlush_gameId (st : TickerState) (b : Bool) :
    (criticalFlush st b).gameId = st.gameId := by
  obtain ⟨m, r, a, h⟩ := criticalFlush_frame st b
  rw [h]

/-- The ticker state after the per-occurrence mutations of the loop
body (seen-set add, score fill, recap buffering, critical flush), as
one composition — names the inlined source expression for the proofs. -/
def stepEventState (st : TickerState) (ev : GameEvent) (lastScore : String) :
    TickerState :=
  criticalFlush
    (recapPush { st with seen := st.seen ++ [ev.id] }
      { ev with score := some (jsOrStr ev.score (jsOrStr ev.score lastScore)) })
    (ev.type == "StopPeriod" || ev.type == "StartPeriod")

lemma stepEventState_seen (st : TickerState) (ev : GameEvent) (ls : String) :
    (stepEventState st ev ls).seen = st.seen ++ [ev.id] := by
  unfold stepEventState
  rw [criticalFlush_seen, recapPush_seen]

lemma stepEventState_isAutoSchedule (st : TickerState) (ev : GameEvent) (ls : String) :
    (stepEventState st ev ls).isAutoSchedule = st.isAutoSchedule := by
  unfold stepEventState
  rw [criticalFlush_isAutoSchedule, recapPush_isAutoSchedule]

lemma stepEventState_gameId (st : TickerState) (ev : GameEvent) (ls : String) :
    (stepEventState st ev ls).gameId = st.gameId := by
  unfold stepEventState
  rw [criticalFlush_gameId, recapPush_gameId]

lemma processEventsGo_cons_seen (chatId : String) (st : TickerState) (queue : List Job)
    (lastScore : String) (ev : GameEvent) (rest : List GameEvent)
    (hseen : st.seen.contains ev.id = true) :
    processEventsGo chatId st queue lastScore (ev :: rest)
      = processEventsGo chatId st queue lastScore rest := by
  simp only [processEventsGo]
  rw [if_pos hseen]

lemma processEventsGo_cons_stop (chatId : String) (st : TickerState) (queue : List Job)
    (lastScore : String) (ev : GameEvent) (rest : List GameEvent)
    (hseen : st.seen.contains ev.id = false)
    (hterm : (ev.type == "StopPeriod" && minuteGT30 ev.time) = true) :
    processEventsGo chatId st queue lastScore (ev :: rest)
      = ⟨{ stepEventState st ev lastScore with
            isPolling := false
            recapTimerArmed := false
            lastKnownScore := some (jsOrStr ev.score lastScore) },
          List.eraseP (fun j => j.chatId == chatId) queue,
          (if (st.mode == some "live") = true then [ev.id] else []),
          (if (stepEventState st ev lastScore).isAutoSchedule = true
            then [(stepEventState st ev lastScore).gameId] else []),
          true, true⟩ := by
  have h1 : ¬(st.seen.contains ev.id = true) := by
    rw [hseen]
    simp
  simp only [processEventsGo, stepEventState]
  rw [if_neg h1, if_pos hterm]

lemma processEventsGo_cons_new (chatId : String) (st : TickerState) (queue : List Job)
    (lastScore : String) (ev : GameEvent) (rest : List GameEvent)
    (hseen : st.seen.contains ev.id = false)
    (hterm : (ev.type == "StopPeriod" && minuteGT30 ev.time) = false) :
    processEventsGo chatId st queue lastScore (ev :: rest)
      = { processEventsGo chatId (stepEventState st ev lastScore) queue
            (jsOrStr ev.score lastScore) rest with
          liveSends := (if (st.mode == some "live") = true then [ev.id] else [])
            ++ (processEventsGo chatId (stepEventState st ev lastScore) queue
                (jsOrStr ev.score lastScore) rest).liveSends,
          processedNew := true } := by
  have h1 : ¬(st.seen.contains ev.id = true) := by
    rw [hseen]
    simp
  have h2 : ¬((ev.type == "StopPeriod" && minuteGT30 ev.time) = true) := by
    rw [hterm]
    simp
  simp only [processEventsGo, stepEventState]
  rw [if_neg h1, if_neg h2]

lemma processEventsGo_props (chatId : String) (evs : List GameEvent) :
    ∀ st queue lastScore,
      (∃ δ, (processEventsGo chatId st queue lastScore evs).ticker.seen
            = st.seen ++ δ
        ∧ ((processEventsGo chatId st queue lastScore evs).processedNew = true
            ↔ δ ≠ []))
      ∧ (processEventsGo chatId st queue lastScore evs).ticker.isAutoSchedule
          = st.isAutoSchedule
      ∧ (processEventsGo chatId st queue lastScore evs).ticker.gameId = st.gameId
      ∧ ((processEventsGo chatId st queue lastScore evs).stopped = true →
          (processEventsGo chatId st queue lastScore evs).ticker.isPolling = false
          ∧ (processEventsGo chatId st queue lastScore evs).ticker.recapTimerArmed
              = false
          ∧ (processEventsGo chatId st queue lastScore evs).queue
              = List.eraseP (fun j => j.chatId == chatId) queue
          ∧ (processEventsGo chatId st queue lastScore evs).autoAttempts
              = (if st.isAutoSchedule = true then [st.gameId] else []))
      ∧ ((processEventsGo chatId st queue lastScore evs).stopped = false →
          (processEventsGo chatId st queue lastScore evs).queue = queue
          ∧ (processEventsGo chatId st queue lastScore evs).autoAttempts = [])
      ∧ (∀ id,
          ((processEventsGo chatId st queue lastScore evs).liveSends.count id ≤ 1)
          ∧ (id ∈ st.seen →
              (processEventsGo chatId st queue lastScore evs).liveSends.count id = 0)
          ∧ (id ∈ (processEventsGo chatId st queue lastScore evs).liveSends →
              id ∈ (processEventsGo chatId st queue lastScore evs).ticker.seen)) := by
  induction evs with
  | nil =>
    intro st queue lastScore
    refine ⟨⟨[], by simp [processEventsGo], by simp [processEventsGo]⟩, rfl, rfl,
      ?_, ?_, ?_⟩
    · intro h
      simp [processEventsGo] at h
    · intro _
      exact ⟨rfl, rfl⟩
    · intro id
      refine ⟨by simp [processEventsGo], fun _ => by simp [processEventsGo], fun h => ?_⟩
      simp [processEventsGo] at h
  | cons ev rest ih =>
    intro st queue lastScore
    by_cases hseen : st.seen.contains ev.id = true
    · rw [processEventsGo_cons_seen chatId st queue lastScore ev rest hseen]
      exact ih st queue lastScore
    · have hseen' : st.seen.contains ev.id = false := by
        simpa using hseen
      have hmem : ev.id ∉ st.seen := by
        simpa using hseen'
      by_cases hterm : (ev.type == "StopPeriod" && minuteGT30 ev.time) = true
      · rw [processEventsGo_cons_stop chatId st queue lastScore ev rest hseen' hterm]
        refine ⟨⟨[ev.id], ?_, by simp⟩, ?_, ?_, ?_, ?_, ?_⟩
        · simp [stepEventState_seen]
        · simp [stepEventState_isAutoSchedule]
        · simp [stepEventState_gameId]
        · intro _
          refine ⟨rfl, rfl, rfl, ?_⟩
          simp [stepEventState_isAutoSchedule, stepEventState_gameId]
        · intro h
          simp at h
        · intro id
          refine ⟨?_, ?_, ?_⟩
          · by_cases hmode : (st.mode == some "live") = true
            · have hle := List.count_le_length id [ev.id]
              simpa [hmode] using hle
            · simp [hmode]
          · intro hid
            have hne : id ≠ ev.id := fun h => hmem (h ▸ hid)
            by_cases hmode : (st.mode == some "live") = true <;>
              simp [hmode, List.count_eq_zero, hne]
          · intro hid
            by_cases hmode : (st.mode == some "live") = true <;>
              simp [hmode, stepEventState_seen] at hid ⊢
            simp [hid]
      · have hterm' : (ev.type == "StopPeriod" && minuteGT30 ev.time) = false := by
          simpa using hterm
        rw [processEventsGo_cons_new chatId st queue lastScore ev rest hseen' hterm']
        obtain ⟨⟨δ', hδseen, hδiff⟩, hauto, hgid, hstopT, hstopF, hsends⟩ :=
          ih (stepEventState st ev lastScore) queue (jsOrStr ev.score lastScore)
        have hstep : (stepEventState st ev lastScore).seen = st.seen ++ [ev.id] :=
          stepEventState_seen st ev lastScore
        refine ⟨⟨ev.id :: δ', ?_, by simp⟩, ?_, ?_, ?_, ?_, ?_⟩
        · show (processEventsGo chatId (stepEventState st ev lastScore) queue
            (jsOrStr ev.score lastScore) rest).ticker.seen = st.seen ++ (ev.id :: δ')
          rw [hδseen, hstep]
          simp
        · show (processEventsGo chatId (stepEventState st ev lastScore) queue
            (jsOrStr ev.score lastScore) rest).ticker.isAutoSchedule = st.isAutoSchedule
          rw [hauto, stepEventState_isAutoSchedule]
        · show (processEventsGo chatId (stepEventState st ev lastScore) queue
            (jsOrStr ev.score lastScore) rest).ticker.gameId = st.gameId
          rw [hgid, stepEventState_gameId]
        · intro h
          obtain ⟨hp, hr, hq, ha⟩ := hstopT h
          refine ⟨hp, hr, hq, ?_⟩
          rw [ha, stepEventState_isAutoSchedule, stepEventState_gameId]
        · intro h
          exact hstopF h
        · intro id
          obtain ⟨hc1, hc2, hc3⟩ := hsends id
          have hev_in : ev.id ∈ (stepEventState st ev lastScore).seen := by
            rw [hstep]
            simp
          refine ⟨?_, ?_, ?_⟩
          · show ((if (st.mode == some "live") = true then [ev.id] else [])
              ++ (processEventsGo chatId (stepEventState st ev lastScore) queue
                  (jsOrStr ev.score lastScore) rest).liveSends).count id ≤ 1
            rw [List.count_append]
            by_cases hid : id = ev.id
            · subst hid
              have h0 := hc2 hev_in
              by_cases hmode : (st.mode == some "live") = true <;>
                simp [hmode, h0]
            · have : (if (st.mode == some "live") = true
                  then [ev.id] else []).count id = 0 := by
                by_cases hmode : (st.mode == some "live") = true <;>
                  simp [hmode, List.count_eq_zero, hid]
              omega
          · intro hid
            have hne : id ≠ ev.id := fun h => hmem (h ▸ hid)
            have hid3 : id ∈ (stepEventState st ev lastScore).seen := by
              rw [hstep]
              exact List.mem_append_left _ hid
            show ((if (st.mode == some "live") = true then [ev.id] else [])
              ++ (processEventsGo chatId (stepEventState st ev lastScore) queue
                  (jsOrStr ev.score lastScore) rest).liveSends).count id = 0
            rw [List.count_append, hc2 hid3]
            by_cases hmode : (st.mode == some "live") = true <;>
              simp [hmode, List.count_eq_zero, hne]
          · intro hid
            show id ∈ (processEventsGo chatId (stepEventState st ev lastScore) queue
              (jsOrStr ev.score lastScore) rest).ticker.seen
            rcases List.mem_append.mp hid with h | h
            · have : id = ev.id := by
                by_cases hmode : (st.mode == some "live") = true <;>
                  simp [hmode] at h
                exact h
              subst this
              rw [hδseen]
              exact List.mem_append_left _ hev_in
            · exact hc3 h

/-! ## C5 — terminal-occurrence handling -/

/-- C5 (amended) — Whenever the event processor encounters a
not-yet-seen StopPeriod occurrence with in-game minute above the
regulation threshold (recorded by the `stopped` flag of the run), it
stops polling, cancels the periodic recap flush timer, removes the
FIRST queued job whose chat identifier matches (`findIndex` +
`splice(index, 1)` — not all of them), and schedules exactly one
next-game resolution attempt with the just-concluded game identifier
as exclusion — when the auto-schedule flag is set, none otherwise;
the candidate selection of that attempt never returns a game whose
identifier equals the excluded one. -/
theorem processEvents_gameEnd (chatId : String) (gd : GameData) (st : TickerState)
    (queue : List Job)
    (h : (processEvents chatId gd st queue).stopped = true) :
    (processEvents chatId gd st queue).ticker.isPolling = false
    ∧ (processEvents chatId gd st queue).ticker.recapTimerArmed = false
    ∧ (processEvents chatId gd st queue).queue
        = List.eraseP (fun j => j.chatId == chatId) queue
    ∧ (processEvents chatId gd st queue).autoAttempts
        = (if st.isAutoSchedule = true then [st.gameId] else [])
    ∧ (∀ games g, findNextGame games st.gameId = some g → some g.id ≠ st.gameId) := by
  have hprops := processEventsGo_props chatId gd.events.reverse st queue
    (jsOrStr st.lastKnownScore "0-0")
  obtain ⟨hp, hr, hq, ha⟩ := hprops.2.2.2.1 h
  refine ⟨hp, hr, hq, ha, ?_⟩
  intro games g hfind
  have hpred := List.find?_some hfind
  simp only [Bool.and_eq_true] at hpred
  intro heq
  have h3 := hpred.2
  rw [heq] at h3
  simp at h3

/-- Terminal occurrence (full-time whistle at minute 60) for the C5
and C4 fixtures. -/
def endEv : GameEvent :=
  { id := "z9", type := "StopPeriod", time := some "60:00", score := some "30-28" }

/-- Live-mode polling ticker with auto-schedule for the C5 fixtures. -/
def liveSt : TickerState :=
  { isPolling := true, mode := some "live", gameId := some "g.7",
    isAutoSchedule := true, teamNames := some ("H", "G"),
    lastKnownScore := some "0-0", recapTimerArmed := false }

/-- C5 witness: processing the fresh full-time occurrence `endEv` at
`liveSt` stops polling and makes exactly one auto-schedule attempt
excluding the concluded game `g.7`. -/
theorem processEvents_gameEnd_witness :
    (processEvents "c" { events := [endEv] } liveSt [jobB]).ticker.isPolling = false
    ∧ (processEvents "c" { events := [endEv] } liveSt [jobB]).autoAttempts
        = [some "g.7"]
    ∧ (∀ g, findNextGame [⟨"g.7", "Pre", some 5⟩, ⟨"g.8", "Pre", some 9⟩]
        (some "g.7") = some g → some g.id ≠ some "g.7") := by
  have h := processEvents_gameEnd "c" { events := [endEv] } liveSt [jobB] (by decide)
  refine ⟨h.1, ?_, ?_⟩
  · rw [h.2.2.2.1]
    decide
  · intro g hg
    have h5 := h.2.2.2.2 [⟨"g.7", "Pre", some 5⟩, ⟨"g.8", "Pre", some 9⟩] g
    simp only [show liveSt.gameId = some "g.7" from rfl] at h5
    exact h5 hg

/-- C5 counterexample — the claim says the game-end handling removes
the subscription's queued jobs (all of them) from the job queue. With
two queued jobs for chat `"c"`, the splice removes only the first one:
`jobB` for chat `"c"` is still queued after the terminal occurrence. -/
theorem processEvents_gameEnd_two_jobs_cex :
    jobA.chatId = "c" ∧ jobB.chatId = "c"
    ∧ (processEvents "c" { events := [endEv] } liveSt [jobA, jobB]).stopped = true
    ∧ (processEvents "c" { events := [endEv] } liveSt [jobA, jobB]).queue = [jobB] := by
  decide

/-! ## C4 — poll-job version check -/

lemma jsLtChars_irrefl (l : List Char) : jsLtChars l l = false := by
  induction l with
  | nil => rfl
  | cons a as ih => simp [jsLtChars, ih]

lemma pollDefaults_seen (st : TickerState) (gd : GameData) :
    (pollDefaults st gd).seen = st.seen := by
  by_cases h1 : st.teamNames.isNone = true <;>
    by_cases h2 : strTruthy st.ageGroup = true <;>
      by_cases h3 : strTruthy st.lastKnownScore = true <;>
        simp [pollDefaults, h1, h2, h3]

/-- C4 (amended) — For every successful poll-job execution: when the
fetched version token is not strictly greater (in JS string order)
than a recorded, non-empty last-seen token — in particular when it is
unchanged — the job processes no events, delivers nothing, leaves the
queue alone and persists nothing (only the lazy metadata defaults are
filled in); when no token is recorded or the fetched token is strictly
greater, the payload is delegated to the event processor, and the seen
set is persisted exactly when it gained at least one new occurrence
identifier. -/
theorem pollJob_version_check (chatId : String) (gd : GameData) (st : TickerState)
    (queue : List Job) :
    (tokenFresh (pollDefaults st gd) gd = false →
      runWorkerPoll chatId gd st queue = ⟨pollDefaults st gd, queue, [], [], false⟩)
    ∧ (∀ tk, gd.updatedAt = some tk → (pollDefaults st gd).lastUpdatedAt = some tk →
        tk.isEmpty = false → tokenFresh (pollDefaults st gd) gd = false)
    ∧ (tokenFresh (pollDefaults st gd) gd = true →
      runWorkerPoll chatId gd st queue
        = ⟨(processEvents chatId gd
              { pollDefaults st gd with lastUpdatedAt := gd.updatedAt } queue).ticker,
            (processEvents chatId gd
              { pollDefaults st gd with lastUpdatedAt := gd.updatedAt } queue).queue,
            (processEvents chatId gd
              { pollDefaults st gd with lastUpdatedAt := gd.updatedAt } queue).liveSends,
            (processEvents chatId gd
              { pollDefaults st gd with lastUpdatedAt := gd.updatedAt } queue).autoAttempts,
            (processEvents chatId gd
              { pollDefaults st gd with lastUpdatedAt := gd.updatedAt } queue).processedNew⟩)
    ∧ ((runWorkerPoll chatId gd st queue).saved = true
        ↔ (runWorkerPoll chatId gd st queue).ticker.seen ≠ (pollDefaults st gd).seen) := by
  refine ⟨?_, ?_, ?_, ?_⟩
  · intro h
    unfold runWorkerPoll
    rw [if_neg (by rw [h]; simp)]
  · intro tk h1 h2 h3
    unfold tokenFresh
    rw [h1, h2]
    simp [strTruthy, h3, jsStrLt, jsLtChars_irrefl]
  · intro h
    unfold runWorkerPoll
    rw [if_pos h]
  · by_cases hf : tokenFresh (pollDefaults st gd) gd = true
    · have hrw : runWorkerPoll chatId gd st queue
          = ⟨(processEvents chatId gd
                { pollDefaults st gd with lastUpdatedAt := gd.updatedAt } queue).ticker,
              (processEvents chatId gd
                { pollDefaults st gd with lastUpdatedAt := gd.updatedAt } queue).queue,
              (processEvents chatId gd
                { pollDefaults st gd with lastUpdatedAt := gd.updatedAt } queue).liveSends,
              (processEvents chatId gd
                { pollDefaults st gd with lastUpdatedAt := gd.updatedAt } queue).autoAttempts,
              (processEvents chatId gd
                { pollDefaults st gd with lastUpdatedAt := gd.updatedAt } queue).processedNew⟩ := by
        unfold runWorkerPoll
        rw [if_pos hf]
      rw [hrw]
      obtain ⟨δ, hδ, hiff⟩ := (processEventsGo_props chatId gd.events.reverse
        { pollDefaults st gd with lastUpdatedAt := gd.updatedAt } queue
        (jsOrStr (pollDefaults st gd).lastKnownScore "0-0")).1
      show (processEvents chatId gd _ queue).processedNew = true ↔ _
      rw [show (processEvents chatId gd
          { pollDefaults st gd with lastUpdatedAt := gd.updatedAt } queue)
          = processEventsGo chatId
            { pollDefaults st gd with lastUpdatedAt := gd.updatedAt } queue
            (jsOrStr (pollDefaults st gd).lastKnownScore "0-0") gd.events.reverse
          from rfl]
      rw [hiff, hδ]
      show (δ ≠ []) ↔ (pollDefaults st gd).seen ++ δ ≠ (pollDefaults st gd).seen
      simp
    · have hf' : tokenFresh (pollDefaults st gd) gd = false := by
        simpa using hf
      have hrw : runWorkerPoll chatId gd st queue
          = ⟨pollDefaults st gd, queue, [], [], false⟩ := by
        unfold runWorkerPoll
        rw [if_neg (by rw [hf']; simp)]
      rw [hrw]
      simp

/-- Ticker for the C4 fixtures: polling, last-seen token `"b"`. -/
def pollSt : TickerState :=
  { isPolling := true, mode := some "live", lastUpdatedAt := some "b",
    lastKnownScore := some "0-0", teamNames := some ("H", "G"),
    ageGroup := some "Men", gameId := some "g.7" }

/-- Payload re-fetching the unchanged token `"b"` (C4 witness). -/
def pollGdSame : GameData :=
  { updatedAt := some "b", homeTeam := "H", awayTeam := "G",
    ageGroup := some "Men", events := [flushEv] }

/-- Payload with a token that changed to the strictly smaller `"a"`,
carrying one never-seen event (C4 counterexample). -/
def pollGdOld : GameData :=
  { updatedAt := some "a", homeTeam := "H", awayTeam := "G",
    ageGroup := some "Men", events := [⟨"n1", "Goal", some "05:00",
      some "1-0", "", some "Home", 1⟩] }

/-- C4 witness: re-fetching the unchanged token `"b"` at `pollSt` is a
no-op. -/
theorem pollJob_version_check_witness :
    tokenFresh (pollDefaults pollSt pollGdSame) pollGdSame = false
    ∧ runWorkerPoll "c" pollGdSame pollSt []
        = ⟨pollDefaults pollSt pollGdSame, [], [], [], false⟩ := by
  have h := pollJob_version_check "c" pollGdSame pollSt []
  have h0 := h.2.1 "b" rfl (by decide) (by decide)
  exact ⟨h0, h.1 h0⟩

/-- C4 counterexample — the claim says that whenever the fetched token
differs from the last-seen token the payload is delegated to the event
processor. With last-seen `"b"` and fetched `"a"` (changed, but not
strictly greater) and a never-seen event in the payload, the job
processes nothing: no delivery, no persistence, seen set unchanged. -/
theorem pollJob_version_check_cex :
    pollGdOld.updatedAt ≠ pollSt.lastUpdatedAt
    ∧ pollGdOld.events ≠ []
    ∧ (∀ e ∈ pollGdOld.events, e.id ∉ pollSt.seen)
    ∧ (runWorkerPoll "c" pollGdOld pollSt []).liveSends = []
    ∧ (runWorkerPoll "c" pollGdOld pollSt []).saved = false
    ∧ (runWorkerPoll "c" pollGdOld pollSt []).ticker.seen = pollSt.seen := by
  decide

/-! ## C1 — at-most-once live delivery -/

lemma runPollJob_props (chatId : String) (gd : GameData) (st : TickerState)
    (queue : List Job) :
    (∃ δ, (runPollJob chatId gd st queue).ticker.seen = st.seen ++ δ)
    ∧ (∀ id, (runPollJob chatId gd st queue).liveSends.count id ≤ 1
        ∧ (id ∈ st.seen → (runPollJob chatId gd st queue).liveSends.count id = 0)
        ∧ (id ∈ (runPollJob chatId gd st queue).liveSends →
            id ∈ (runPollJob chatId gd st queue).ticker.seen)) := by
  unfold runPollJob runWorkerPoll
  by_cases hp : (!st.isPolling) = true
  · rw [if_pos hp]
    refine ⟨⟨[], by simp⟩, ?_⟩
    intro id
    exact ⟨by simp, fun _ => by simp, fun h => by simp at h⟩
  · rw [if_neg hp]
    by_cases hf : tokenFresh (pollDefaults st gd) gd = true
    · rw [if_pos hf]
      have hprops := processEventsGo_props chatId gd.events.reverse
        { pollDefaults st gd with lastUpdatedAt := gd.updatedAt } queue
        (jsOrStr (pollDefaults st gd).lastKnownScore "0-0")
      have hseen2 : ({ pollDefaults st gd with
          lastUpdatedAt := gd.updatedAt } : TickerState).seen = st.seen := by
        show (pollDefaults st gd).seen = st.seen
        exact pollDefaults_seen st gd
      obtain ⟨⟨δ, hδ, _⟩, _, _, _, _, hsends⟩ := hprops
      rw [hseen2] at hδ
      refine ⟨⟨δ, hδ⟩, ?_⟩
      intro id
      obtain ⟨hc1, hc2, hc3⟩ := hsends id
      rw [hseen2] at hc2
      exact ⟨hc1, hc2, hc3⟩
    · rw [if_neg hf]
      refine ⟨⟨[], by simp [pollDefaults_seen]⟩, ?_⟩
      intro id
      exact ⟨by simp, fun _ => by simp, fun h => by simp at h⟩

/-- C1 — For every occurrence identifier and every subscription,
across any sequence of poll-job executions (stale jobs, unchanged
version tokens and re-appearing occurrences included), the live
delivery call fires at most once per identifier: an identifier already
in the seen set is never delivered, the seen set only grows, and every
delivered identifier is in the seen set afterwards. -/
theorem live_delivery_at_most_once (chatId : String) (st : TickerState)
    (queue : List Job) (gds : List GameData) (id : String) :
    (∃ δ, (runPollSeq chatId st queue gds).ticker.seen = st.seen ++ δ)
    ∧ (runPollSeq chatId st queue gds).liveSends.count id ≤ 1
    ∧ (id ∈ st.seen → (runPollSeq chatId st queue gds).liveSends.count id = 0)
    ∧ (id ∈ (runPollSeq chatId st queue gds).liveSends →
        id ∈ (runPollSeq chatId st queue gds).ticker.seen) := by
  induction gds generalizing st queue with
  | nil =>
    refine ⟨⟨[], by simp [runPollSeq]⟩, by simp [runPollSeq],
      fun _ => by simp [runPollSeq], fun h => ?_⟩
    simp [runPollSeq] at h
  | cons gd rest ih =>
    obtain ⟨⟨δr, hδr⟩, hcnt⟩ := runPollJob_props chatId gd st queue
    obtain ⟨hc1, hc2, hc3⟩ := hcnt id
    obtain ⟨⟨δs, hδs⟩, ic1, ic2, ic3⟩ :=
      ih (runPollJob chatId gd st queue).ticker (runPollJob chatId gd st queue).queue
    have hrw : runPollSeq chatId st queue (gd :: rest)
        = ⟨(runPollSeq chatId (runPollJob chatId gd st queue).ticker
              (runPollJob chatId gd st queue).queue rest).ticker,
            (runPollSeq chatId (runPollJob chatId gd st queue).ticker
              (runPollJob chatId gd st queue).queue rest).queue,
            (runPollJob chatId gd st queue).liveSends
              ++ (runPollSeq chatId (runPollJob chatId gd st queue).ticker
                  (runPollJob chatId gd st queue).queue rest).liveSends⟩ := rfl
    rw [hrw]
    refine ⟨⟨δr ++ δs, ?_⟩, ?_, ?_, ?_⟩
    · show (runPollSeq chatId (runPollJob chatId gd st queue).ticker
        (runPollJob chatId gd st queue).queue rest).ticker.seen = st.seen ++ (δr ++ δs)
      rw [hδs, hδr, List.append_assoc]
    · show ((runPollJob chatId gd st queue).liveSends
        ++ (runPollSeq chatId (runPollJob chatId gd st queue).ticker
            (runPollJob chatId gd st queue).queue rest).liveSends).count id ≤ 1
      rw [List.count_append]
      by_cases hin : id ∈ (runPollJob chatId gd st queue).liveSends
      · have hz := ic2 (hc3 hin)
        omega
      · have hz : (runPollJob chatId gd st queue).liveSends.count id = 0 :=
          List.count_eq_zero.mpr hin
        omega
    · intro hmem
      show ((runPollJob chatId gd st queue).liveSends
        ++ (runPollSeq chatId (runPollJob chatId gd st queue).ticker
            (runPollJob chatId gd st queue).queue rest).liveSends).count id = 0
      rw [List.count_append, hc2 hmem]
      have hmem' : id ∈ (runPollJob chatId gd st queue).ticker.seen := by
        rw [hδr]
        exact List.mem_append_left _ hmem
      rw [ic2 hmem']
    · intro hmem
      show id ∈ (runPollSeq chatId (runPollJob chatId gd st queue).ticker
        (runPollJob chatId gd st queue).queue rest).ticker.seen
      rcases List.mem_append.mp hmem with h | h
      · rw [hδs]
        exact List.mem_append_left _ (hc3 h)
      · exact ic3 h

/-- C1 witness: the at-most-once properties at a concrete state whose
seen set already contains `"x1"` — a later poll never re-delivers it. -/
theorem live_delivery_at_most_once_witness :
    (runPollSeq "c" priorTicker [] [pollGdOld]).liveSends.count "x1" = 0 := by
  have h := live_delivery_at_most_once "c" priorTicker [] [pollGdOld] "x1"
  exact h.2.2.1 (by decide)

/-! ## C3 — worker pool bound -/

/-- C3 — In every reachable state of the scheduler/dispatcher system,
the `activeWorkers` counter equals the number of currently executing
jobs and never exceeds the worker capacity `MAX_WORKERS`: the
dispatcher dispatches only below capacity and increments the counter,
and every job completion (success, failure or stale discard)
decrements it exactly once. -/
theorem worker_pool_bound (init s : SysState) (h0 : WorkerInv init)
    (h : Relation.ReflTransGen Step init s) : WorkerInv s := by
  induction h with
  | refl => exact h0
  | @tail b c hR hS ih =>
    cases hS with
    | scheduler jobId => exact ih
    | dispatch hq hw =>
      rcases hq2 : b.queue with _ | ⟨j, rest⟩
      · exact absurd hq2 hq
      · have hd : dispatchFn b = { b with
            queue := rest
            running := b.running ++ [j]
            activeWorkers := b.activeWorkers + 1 } := by
          unfold dispatchFn
          rw [hq2]
        rw [hd]
        refine ⟨?_, ?_⟩
        · show b.activeWorkers + 1 = (b.running ++ [j]).length
          rw [List.length_append, ← ih.1]
          rfl
        · show b.activeWorkers + 1 ≤ MAX_WORKERS
          have h5 : b.activeWorkers < MAX_WORKERS := hw
          omega
    | finish j hj =>
      refine ⟨?_, ?_⟩
      · show b.activeWorkers - 1 = (b.running.erase j).length
        rw [List.length_erase_of_mem hj, ← ih.1]
      · show b.activeWorkers - 1 ≤ MAX_WORKERS
        have h5 := ih.2
        omega
    | beginPolling chatId t jobId => exact ih
    | enqueueSchedule chatId gid jobId => exact ih
    | removeForChat chatId => exact ih
    | mutateTickers tickers2 => exact ih

/-! ## Concrete executions of the scheduler/dispatcher system -/

/-- One polling subscription for the concrete executions. -/
def cexTicker : TickerState := { isPolling := true, gameId := some "g.1" }

/-- Initial system state: one polling subscription, empty queue,
cursor -1 (`lastPolledIndex` initial value), no workers. -/
def cexInit : SysState := ⟨[("c", cexTicker)], [], -1, [], 0⟩

/-- After one master-scheduler tick: a poll job queued for `"c"`. -/
def cexS1 : SysState := schedStepFn cexInit 1

/-- After the dispatcher picks the job up: it is in flight. -/
def cexS2 : SysState := dispatchFn cexS1

/-- After the next master-scheduler tick: a second poll job queued for
`"c"` while the first is still in flight. -/
def cexS3 : SysState := schedStepFn cexS2 2

/-- C3 witness: the worker invariant at the concrete reachable state
`cexS2` (one dispatched job), via the bound theorem. -/
theorem worker_pool_bound_witness : WorkerInv cexS2 := by
  have h1 : Relation.ReflTransGen Step cexInit cexS1 :=
    Relation.ReflTransGen.single (Step.scheduler cexInit 1)
  have h2 : Relation.ReflTransGen Step cexInit cexS2 :=
    h1.tail (Step.dispatch cexS1 (by decide) (by decide))
  exact worker_pool_bound cexInit cexS2 ⟨rfl, by decide⟩ h2

/-- C2 counterexample — the claim says each polling subscription has
at most one poll job in flight or queued in every reachable state. The
state `cexS3` is reachable (scheduler tick, dispatch, scheduler tick):
chat `"c"` is a polling subscription with one poll job in flight AND
one queued, because the scheduler's duplicate check inspects only the
queue, not the in-flight jobs. -/
theorem scheduler_inflight_queued_cex :
    Relation.ReflTransGen Step cexInit cexS3
    ∧ (cexS3.tickers.filter (fun p => p.1 == "c" && p.2.isPolling)).length = 1
    ∧ (cexS3.running.filter (isPollJobFor "c")).length = 1
    ∧ (cexS3.queue.filter (isPollJobFor "c")).length = 1 := by
  refine ⟨?_, by decide, by decide, by decide⟩
  have h1 : Relation.ReflTransGen Step cexInit cexS1 :=
    Relation.ReflTransGen.single (Step.scheduler cexInit 1)
  have h2 : Relation.ReflTransGen Step cexInit cexS2 :=
    h1.tail (Step.dispatch cexS1 (by decide) (by decide))
  exact h2.tail (Step.scheduler cexS2 2)

/-! ## C2 — queued-poll bound, cursor advance, fairness -/

lemma filter_nil_of_any_false {α : Type} (p : α → Bool) (l : List α)
    (h : l.any p = false) : l.filter p = [] := by
  induction l with
  | nil => rfl
  | cons a tl ih =>
    simp only [List.any_cons, Bool.or_eq_false_iff] at h
    simp [List.filter_cons, h.1, ih h.2]

lemma pollingPairs_isPolling {tickers : List (String × TickerState)}
    {p : String × TickerState} (h : p ∈ pollingPairs tickers) :
    p.2.isPolling = true := by
  have h2 := (List.mem_filter.mp h).2
  simpa using h2

lemma masterSchedulerFn_queue_cases (tickers : List (String × TickerState))
    (cursor : Int) (queue : List Job) (jobId : Nat) :
    (masterSchedulerFn tickers cursor queue jobId).2 = queue
    ∨ ∃ chat gid, queue.any (isPollJobFor chat) = false
        ∧ (masterSchedulerFn tickers cursor queue jobId).2
            = queue ++ [⟨"poll", chat, gid, jobId⟩] := by
  simp only [masterSchedulerFn]
  split
  · exact Or.inl rfl
  · split
    · exact Or.inl rfl
    · split
      · rename_i target hget hcond
        right
        refine ⟨target.1, target.2.gameId, ?_, rfl⟩
        simp only [Bool.and_eq_true, Bool.not_eq_true'] at hcond
        exact hcond.2
      · exact Or.inl rfl

lemma masterSchedulerFn_cursor (tickers : List (String × TickerState))
    (cursor : Int) (queue : List Job) (jobId : Nat)
    (h : (pollingPairs tickers).length ≠ 0) :
    (masterSchedulerFn tickers cursor queue jobId).1
      = (cursor + 1).emod (pollingPairs tickers).length := by
  simp only [masterSchedulerFn]
  rw [if_neg h]
  split
  · rfl
  · split <;> rfl

lemma step_queuedPollInv {s s' : SysState} (h : QueuedPollInv s) (hs : Step s s') :
    QueuedPollInv s' := by
  cases hs with
  | scheduler jobId =>
    intro c
    show (((masterSchedulerFn s.tickers s.cursor s.queue jobId).2).filter
      (isPollJobFor c)).length ≤ 1
    rcases masterSchedulerFn_queue_cases s.tickers s.cursor s.queue jobId with
      hq | ⟨chat, gid, hany, hq⟩
    · rw [hq]
      exact h c
    · rw [hq, List.filter_append]
      by_cases hc : isPollJobFor c ⟨"poll", chat, gid, jobId⟩ = true
      · have hceq : chat = c := by
          simpa [isPollJobFor] using hc
        subst hceq
        have hnil : s.queue.filter (isPollJobFor chat) = [] :=
          filter_nil_of_any_false _ _ hany
        simp [hnil, hc]
      · have hc' : isPollJobFor c ⟨"poll", chat, gid, jobId⟩ = false := by
          simpa using hc
        rw [List.length_append]
        have : ([(⟨"poll", chat, gid, jobId⟩ : Job)].filter (isPollJobFor c)).length
            = 0 := by
          simp [hc']
        rw [this]
        simpa using h c
  | dispatch hq hw =>
    intro c
    have hsub : (dispatchFn s).queue.Sublist s.queue := by
      unfold dispatchFn
      cases hq3 : s.queue with
      | nil => simp [hq3]
      | cons j rest => simp [hq3]
    have hle := ((hsub.filter (isPollJobFor c)).length_le)
    exact le_trans hle (h c)
  | finish j hj => exact h
  | beginPolling chatId t jobId =>
    intro c
    show ((beginPollingEnqueue chatId t s.queue jobId).filter (isPollJobFor c)).length ≤ 1
    unfold beginPollingEnqueue
    by_cases hany : s.queue.any (isPollJobFor chatId) = true
    · rw [if_neg (by rw [hany]; simp)]
      exact h c
    · have hany' : s.queue.any (isPollJobFor chatId) = false := by simpa using hany
      rw [if_pos (by rw [hany']; rfl)]
      rw [List.filter_cons]
      by_cases hc : isPollJobFor c (⟨"poll", chatId, t.gameId, jobId⟩ : Job) = true
      · have hceq : chatId = c := by
          simpa [isPollJobFor] using hc
        subst hceq
        have hnil : s.queue.filter (isPollJobFor chatId) = [] :=
          filter_nil_of_any_false _ _ hany'
        simp [hnil, hc]
      · have hc' : isPollJobFor c (⟨"poll", chatId, t.gameId, jobId⟩ : Job) = false := by
          simpa using hc
        simp only [hc', Bool.false_eq_true, if_false]
        exact h c
  | enqueueSchedule chatId gid jobId =>
    intro c
    show ((s.queue ++ [(⟨"schedule", chatId, gid, jobId⟩ : Job)]).filter
      (isPollJobFor c)).length ≤ 1
    rw [List.filter_append]
    have hc : isPollJobFor c (⟨"schedule", chatId, gid, jobId⟩ : Job) = false := by
      simp [isPollJobFor]
    simp only [List.filter_cons, hc, Bool.false_eq_true, if_false, List.filter_nil,
      List.append_nil]
    exact h c
  | removeForChat chatId =>
    intro c
    have hsub : (List.eraseP (fun j => j.chatId == chatId) s.queue).Sublist s.queue :=
      List.eraseP_sublist s.queue
    have hle := ((hsub.filter (isPollJobFor c)).length_le)
    exact le_trans hle (h c)
  | mutateTickers tickers2 => exact h

lemma schedStep_cursor (tickers : List (String × TickerState)) (cq : Int × List Job)
    (h : (pollingPairs tickers).length ≠ 0) :
    (schedStep tickers cq).1 = (cq.1 + 1).emod (pollingPairs tickers).length :=
  masterSchedulerFn_cursor tickers cq.1 cq.2 0 h

lemma schedStep_mono (tickers : List (String × TickerState)) (cq : Int × List Job)
    (j : Job) (hj : j ∈ cq.2) : j ∈ (schedStep tickers cq).2 := by
  rcases masterSchedulerFn_queue_cases tickers cq.1 cq.2 0 with hq | ⟨chat, gid, _, hq⟩
  · show j ∈ (masterSchedulerFn tickers cq.1 cq.2 0).2
    rw [hq]
    exact hj
  · show j ∈ (masterSchedulerFn tickers cq.1 cq.2 0).2
    rw [hq]
    exact List.mem_append_left _ hj

lemma schedStep_iterate_mono (tickers : List (String × TickerState)) (k : Nat) :
    ∀ cq j, j ∈ cq.2 → j ∈ ((schedStep tickers)^[k] cq).2 := by
  induction k with
  | zero =>
    intro cq j hj
    simpa using hj
  | succ n ihn =>
    intro cq j hj
    rw [Function.iterate_succ_apply]
    exact ihn _ j (schedStep_mono tickers cq j hj)

lemma emod_add_one_emod (N a : Int) : (a.emod N + 1).emod N = (a + 1).emod N := by
  show (a % N + 1) % N = (a + 1) % N
  conv_lhs => rw [Int.emod_def a N]
  have h : a - N * (a / N) + 1 = (a + 1) + N * (-(a / N)) := by ring
  rw [h, Int.add_mul_emod_self_left]

lemma add_emod_emod (N a b : Int) : (a + b.emod N).emod N = (a + b).emod N := by
  show (a + b % N) % N = (a + b) % N
  conv_lhs => rw [Int.emod_def b N]
  have h : a + (b - N * (b / N)) = (a + b) + N * (-(b / N)) := by ring
  rw [h, Int.add_mul_emod_self_left]

lemma schedStep_iterate_cursor (tickers : List (String × TickerState))
    (h : (pollingPairs tickers).length ≠ 0) (cq : Int × List Job) :
    ∀ k, 1 ≤ k →
      ((schedStep tickers)^[k] cq).1
        = (cq.1 + k).emod (pollingPairs tickers).length := by
  intro k
  induction k with
  | zero => omega
  | succ n ihn =>
    intro _
    rw [Function.iterate_succ_apply']
    rcases Nat.eq_zero_or_pos n with h0 | hpos
    · subst h0
      simp only [Function.iterate_zero, id]
      rw [schedStep_cursor tickers cq h]
      norm_num
    · rw [schedStep_cursor tickers _ h, ihn hpos, emod_add_one_emod]
      congr 1
      push_cast
      ring

lemma schedStep_visit (tickers : List (String × TickerState)) (cq : Int × List Job)
    (p : String × TickerState) (i : Nat)
    (hget : (pollingPairs tickers)[i]? = some p)
    (hc : ((cq.1 + 1).emod (pollingPairs tickers).length).toNat = i) :
    ∃ j ∈ (schedStep tickers cq).2, isPollJobFor p.1 j = true := by
  have hi : i < (pollingPairs tickers).length := by
    rcases List.getElem?_eq_some.mp hget with ⟨h, _⟩
    exact h
  have hmem : p ∈ pollingPairs tickers := by
    rcases List.getElem?_eq_some.mp hget with ⟨h, heq⟩
    rw [← heq]
    exact List.getElem_mem h
  have hlen : (pollingPairs tickers).length ≠ 0 := by omega
  simp only [schedStep, masterSchedulerFn]
  rw [if_neg hlen, hc, hget]
  split
  · rename_i heq
    exact absurd heq (by simp)
  · rename_i target heq
    have hpt : target = p := by
      injection heq with h
      exact h.symm
    subst hpt
    split
    · exact ⟨⟨"poll", target.1, target.2.gameId, 0⟩, by simp, by simp [isPollJobFor]⟩
    · rename_i hcond
      have hpoll := pollingPairs_isPolling hmem
      have hany : cq.2.any (isPollJobFor target.1) = true := by
        by_cases hb : cq.2.any (isPollJobFor target.1) = true
        · exact hb
        · exfalso
          apply hcond
          have hb' : cq.2.any (isPollJobFor target.1) = false := by simpa using hb
          rw [hpoll, hb']
          rfl
      obtain ⟨j, hjmem, hjp⟩ := List.any_eq_true.mp hany
      exact ⟨j, hjmem, hjp⟩

lemma scheduler_fairness (tickers : List (String × TickerState)) (c0 : Int)
    (q0 : List Job) (p : String × TickerState) (hp : p ∈ pollingPairs tickers) :
    ∃ j ∈ ((schedStep tickers)^[(pollingPairs tickers).length] (c0, q0)).2,
      isPollJobFor p.1 j = true := by
  obtain ⟨i, hi, hpi⟩ := List.mem_iff_getElem.mp hp
  set N := (pollingPairs tickers).length with hN
  have hN0 : N ≠ 0 := by omega
  have hNZ : ((N : ℤ)) ≠ 0 := by exact_mod_cast hN0
  have hNpos : (0 : ℤ) < N := by
    have := Nat.pos_of_ne_zero hN0
    exact_mod_cast this
  set d : ℤ := ((i : ℤ) - c0 - 1).emod N with hd
  have hd0 : 0 ≤ d := Int.emod_nonneg _ hNZ
  have hdlt : d < N := Int.emod_lt_of_pos _ hNpos
  set k : Nat := d.toNat + 1 with hk
  have hk1 : 1 ≤ k := by omega
  have hkN : k ≤ N := by omega
  have hget : (pollingPairs tickers)[i]? = some p := by
    rw [List.getElem?_eq_getElem hi, hpi]
  have hck : (((c0 + (k : ℤ)).emod N)).toNat = i := by
    have h1 : ((c0 + (k : ℤ)).emod N) = ((i : ℤ)).emod N := by
      have h2 : (c0 + (k : ℤ)) = (c0 + 1) + d := by
        rw [hk]
        push_cast [Int.toNat_of_nonneg hd0]
        ring
      rw [h2, hd, add_emod_emod]
      congr 1
      ring
    have h3 : ((i : ℤ)).emod N = (i : ℤ) :=
      Int.emod_eq_of_lt (by positivity) (by exact_mod_cast hi)
    rw [h1, h3]
    simp
  have hcur : ((((schedStep tickers)^[k - 1] (c0, q0)).1 + 1).emod N).toNat = i := by
    rcases Nat.lt_or_ge 1 k with hk2 | hk2
    · have hcm : ((schedStep tickers)^[k - 1] (c0, q0)).1
          = (c0 + ((k : ℤ) - 1)).emod N := by
        have := schedStep_iterate_cursor tickers hN0 (c0, q0) (k - 1) (by omega)
        rw [this]
        congr 1
        push_cast [Nat.cast_sub hk1]
        ring
      rw [hcm, emod_add_one_emod]
      have h4 : c0 + ((k : ℤ) - 1) + 1 = c0 + (k : ℤ) := by ring
      rw [h4]
      exact hck
    · have hke : k = 1 := by omega
      have h5 : ((schedStep tickers)^[k - 1] (c0, q0)) = (c0, q0) := by
        rw [hke]
        rfl
      rw [h5]
      have h6 : c0 + 1 = c0 + (k : ℤ) := by
        rw [hke]
        norm_num
      rw [show ((c0, q0) : Int × List Job).1 = c0 from rfl, h6]
      exact hck
  obtain ⟨j, hjmem, hjp⟩ :=
    schedStep_visit tickers ((schedStep tickers)^[k - 1] (c0, q0)) p i hget hcur
  refine ⟨j, ?_, hjp⟩
  have hdecomp : (schedStep tickers)^[N] (c0, q0)
      = (schedStep tickers)^[N - k] ((schedStep tickers)^[k] (c0, q0)) := by
    rw [← Function.iterate_add_apply]
    congr 1
    omega
  rw [hdecomp]
  apply schedStep_iterate_mono
  have h7 : (schedStep tickers)^[k] (c0, q0)
      = schedStep tickers ((schedStep tickers)^[k - 1] (c0, q0)) := by
    conv_lhs => rw [show k = (k - 1) + 1 from by omega]
    rw [Function.iterate_succ_apply']
  rw [h7]
  exact hjmem

/-- C2 (amended) — The master scheduler bounds each chat to at most one
QUEUED poll job (an in-flight job is not counted by the duplicate
check, so one may be queued while another executes — see the
counterexample): the at-most-one-queued invariant is preserved along
every reachable execution; each invocation with a non-empty polling
set advances the rotating cursor by exactly one position, wrapping;
and over any window of `N` consecutive fairness passes over a stable
set of `N` polling subscriptions, every polling subscription ends up
with a queued poll job (one is enqueued at its visit unless one is
already queued). -/
theorem scheduler_queue_bound_and_fairness :
    (∀ init s, QueuedPollInv init → Relation.ReflTransGen Step init s →
      QueuedPollInv s)
    ∧ (∀ (s : SysState) (jobId : Nat), (pollingPairs s.tickers).length ≠ 0 →
        (schedStepFn s jobId).cursor
          = (s.cursor + 1).emod (pollingPairs s.tickers).length)
    ∧ (∀ tickers c0 q0 p, p ∈ pollingPairs tickers →
        ∃ j ∈ ((schedStep tickers)^[(pollingPairs tickers).length] (c0, q0)).2,
          isPollJobFor p.1 j = true) := by
  refine ⟨?_, ?_, ?_⟩
  · intro init s h0 h
    induction h with
    | refl => exact h0
    | tail hR hS ih => exact step_queuedPollInv ih hS
  · intro s jobId h
    exact masterSchedulerFn_cursor s.tickers s.cursor s.queue jobId h
  · exact scheduler_fairness

/-- C2 witness: the amended properties at the concrete one-subscription
system — the queued-poll bound at the reachable state `cexS3`, the
cursor advance at `cexInit`, and fairness after one pass over the
single polling subscription. -/
theorem scheduler_queue_bound_and_fairness_witness :
    QueuedPollInv cexS3
    ∧ (schedStepFn cexInit 1).cursor = 0
    ∧ (∃ j ∈ ((schedStep [("c", cexTicker)])^[(pollingPairs
          [("c", cexTicker)]).length] (-1, [])).2, isPollJobFor "c" j = true) := by
  have h := scheduler_queue_bound_and_fairness
  refine ⟨?_, ?_, ?_⟩
  · have h1 : Relation.ReflTransGen Step cexInit cexS1 :=
      Relation.ReflTransGen.single (Step.scheduler cexInit 1)
    have h2 : Relation.ReflTransGen Step cexInit cexS2 :=
      h1.tail (Step.dispatch cexS1 (by decide) (by decide))
    have h3 : Relation.ReflTransGen Step cexInit cexS3 :=
      h2.tail (Step.scheduler cexS2 2)
    refine h.1 cexInit cexS3 ?_ h3
    intro c
    simp [cexInit]
  · rw [h.2.1 cexInit 1 (by decide)]
    decide
  · exact h.2.2 [("c", cexTicker)] (-1) [] ("c", cexTicker) (by decide)

end Liveticker
